import Mathlib

/-!
Shallow embedding of the satellite-tracker pipeline (TypeScript sources):
TLE parsing, the tiered catalog cache, multi-source merge, metadata
classification, filter matching, and topocentric visibility.

JavaScript strings are modelled by Lean `String` (all data of interest is
ASCII, where JS code units and Lean characters agree).  JavaScript numbers
appearing in the catalog logic are integers/rationals; the floating-point
arithmetic of the visibility routine is modelled by a carrier with an
explicit NaN/Infinity, with the transcendental `Math` functions kept
abstract (see `JSNum` and `MathImpl` below).
-/

namespace Satellite

/-- JS `s.substring(a, b)` (0-based, end exclusive, clamping), on ASCII data. -/
def jsSubstring (s : String) (a b : Nat) : String :=
  String.mk ((s.toList.drop a).take (b - a))

/-- Does `pat` occur as a contiguous sublist of `l`? -/
def listHasInfix (l pat : List Char) : Bool :=
  if pat.isPrefixOf l then true
  else
    match l with
    | [] => false
    | _ :: rest => listHasInfix rest pat

/-- JS `s.includes(pat)`: `pat` occurs as a contiguous substring of `s`. -/
def jsIncludes (s pat : String) : Bool :=
  listHasInfix s.toList pat.toList

/-- JS `s.startsWith(pat)`. -/
def jsStartsWith (s pat : String) : Bool :=
  pat.toList.isPrefixOf s.toList

/-- JS `s.toUpperCase()` on ASCII data. -/
def jsToUpper (s : String) : String :=
  String.mk (s.toList.map Char.toUpper)

/-- JS `s.trim()`: strip whitespace from both ends. -/
def jsTrim (s : String) : String :=
  String.mk
    ((((s.toList.dropWhile Char.isWhitespace).reverse).dropWhile
      Char.isWhitespace).reverse)

/-- One step of JS `s.split(sep)` for a single-character separator: split a
char list at every occurrence of `sep`, keeping empty fields. -/
def splitCharList (sep : Char) : List Char → List (List Char)
  | [] => [[]]
  | c :: rest =>
    match splitCharList sep rest with
    | [] => [[c]]
    | g :: gs => if c = sep then [] :: g :: gs else (c :: g) :: gs

/-- JS `s.split('\n')`. -/
def jsSplitNewline (s : String) : List String :=
  (splitCharList (Char.ofNat 10) s.toList).map String.mk

/-- One element record: a name plus the two fixed-width lines (`TLEData`). -/
structure TLEData where
  name : String
  line1 : String
  line2 : String
  deriving DecidableEq, Repr

/-- The built-in fallback set (`FALLBACK_SATELLITES`). -/
def FALLBACK_SATELLITES : List TLEData :=
  [ { name := "ISS (ZARYA)"
    , line1 := "1 25544U 98067A   24001.50000000  .00016717  00000-0  10270-3 0  9025"
    , line2 := "2 25544  51.6400 208.9163 0006703  32.0000 328.1000 15.50000000000017" }
  , { name := "STARLINK-1007"
    , line1 := "1 44713U 19074A   24001.50000000  .00000000  00000-0  10000-4 0  9991"
    , line2 := "2 44713  53.0000 200.0000 0001000  90.0000 270.0000 15.05000000000010" } ]

/-- The acceptance test applied to one (already trimmed) triple inside
`parseTLEData`: `line1.startsWith('1 ') && line2.startsWith('2 ') && name.length > 0`. -/
def tleTripleOk (name line1 line2 : String) : Bool :=
  jsStartsWith line1 "1 " && jsStartsWith line2 "2 " && name.toList.length > 0

/-- The indexed loop of `parseTLEData`: the `for (i += 3)` walk over the line
array, which consumes the lines three at a time by absolute position (the
guard `i + 2 < lines.length` is exactly "three lines remain"). -/
def parseTriples : List String → List TLEData
  | n :: l1 :: l2 :: rest =>
    (if tleTripleOk (jsTrim n) (jsTrim l1) (jsTrim l2)
      then [{ name := jsTrim n, line1 := jsTrim l1, line2 := jsTrim l2 }]
      else []) ++ parseTriples rest
  | _ => []

/-- Source `parseTLEData(rawTle)`: trim the whole text, split on newline, walk the
triples. -/
def parseTLEData (rawTle : String) : List TLEData :=
  parseTriples (jsSplitNewline (jsTrim rawTle))

/-- The persisted cache slot (`CachedTLEData`); timestamps are epoch millis. -/
structure CachedTLEData where
  data : List TLEData
  timestamp : Int
  source : String
  deriving DecidableEq, Repr

/-- Constant `CACHE_DURATION_MS = 6 * 60 * 60 * 1000` (6 hours). -/
def CACHE_DURATION_MS : Int := 6 * 60 * 60 * 1000

/-- Source `isCacheValid(cached)`: `Date.now() - cached.timestamp < CACHE_DURATION_MS`,
with the current wall-clock time passed explicitly. -/
def isCacheValid (now : Int) (cached : CachedTLEData) : Bool :=
  now - cached.timestamp < CACHE_DURATION_MS

/-- The `catch` branch of `fetchTLEData`: stale cache when present and
non-empty (whatever its source), else the built-in fallback set. -/
def fallbackData (cached : Option CachedTLEData) : List TLEData :=
  match cached with
  | some c => if c.data.length > 0 then c.data else FALLBACK_SATELLITES
  | none => FALLBACK_SATELLITES

/-- Outcome of the HTTP attempt, as seen by `fetchTLEData`'s `try` block:
`some text` is a 2xx response with that body; `none` is any network error,
non-2xx status or timeout (all of which `throw` into the `catch`). -/
def FetchOutcome := Option String

/-- The `try`/`catch` part of `fetchTLEData` (reached when the fresh-cache
tier missed): parse the body, reject a yield under 10 records, on success
store the new cache slot; any failure degrades to `fallbackData`. -/
def tryFetchTLE (cached : Option CachedTLEData) (now : Int) (url : String)
    (outcome : Option String) : List TLEData × Option CachedTLEData :=
  match outcome with
  | some text =>
    let data := parseTLEData text
    if data.length < 10 then (fallbackData cached, cached)
    else (data, some { data := data, timestamp := now, source := url })
  | none => (fallbackData cached, cached)

/-- Source `fetchTLEData(url)` as a function of the loaded cache slot, the clock,
and the fetch outcome.  Returns the record list together with the cache slot
as left after the call (`cacheTLEData` writes only on the success path). -/
def fetchTLEData (cached : Option CachedTLEData) (now : Int) (url : String)
    (outcome : Option String) : List TLEData × Option CachedTLEData :=
  match cached with
  | some c =>
    if isCacheValid now c && (c.source == url) then (c.data, some c)
    else tryFetchTLE cached now url outcome
  | none => tryFetchTLE cached now url outcome

/-- Key `sat.line1.substring(2, 7)`: the catalog-number (NORAD) key used by the
multi-source merge. -/
def noradKey (sat : TLEData) : String :=
  jsSubstring sat.line1 2 7

/-- The deduplicating accumulation loop of `fetchAllSatellites`: the two
nested `for` loops traverse the concatenation of the per-source lists in
order, keeping a record only when its key was not seen before. -/
def dedupeByKey (seen : List String) : List TLEData → List TLEData
  | [] => []
  | sat :: rest =>
    if noradKey sat ∈ seen then dedupeByKey seen rest
    else sat :: dedupeByKey (noradKey sat :: seen) rest

/-- Source `fetchAllSatellites`, as a function of the per-source record lists the
three `fetchTLEData` calls produced: merge with first-seen-wins
deduplication, falling back to the built-in set when the merge is empty. -/
def fetchAllSatellites (results : List (List TLEData)) : List TLEData :=
  let allSatellites := dedupeByKey [] results.flatten
  if allSatellites.length > 0 then allSatellites else FALLBACK_SATELLITES

/-- Result type of `extractMetadata` (`SatelliteMetadata`); `orbitClass` is a
union of the four string literals in the TypeScript type, kept as `String`. -/
structure SatelliteMetadata where
  operator : String
  country : String
  missionType : String
  orbitClass : String
  deriving DecidableEq, Repr

/-- JS `m < c` where `m` came from `parseFloat` (`none` models `NaN`, for
which every comparison is false). -/
def numLt (m : Option ℚ) (c : ℚ) : Bool :=
  match m with
  | some q => q < c
  | none => false

/-- JS `m > c` where `m` came from `parseFloat` (`none` models `NaN`). -/
def numGt (m : Option ℚ) (c : ℚ) : Bool :=
  match m with
  | some q => c < q
  | none => false

/-- Source `extractMetadata(tle)`.  The single impure-to-model primitive is
`parseFloat`, passed in as `pf` (returning `none` for `NaN`); everything
else mirrors the source's ordered `if`/`else if` chains. -/
def extractMetadata (pf : String → Option ℚ) (tle : TLEData) : SatelliteMetadata :=
  let name := jsToUpper tle.name
  let operator :=
    if jsIncludes name "STARLINK" then "SpaceX"
    else if jsIncludes name "ONEWEB" then "OneWeb"
    else if jsIncludes name "GPS" then "USSF"
    else if jsIncludes name "IRNSS" || jsIncludes name "NAVIC" then "ISRO"
    else if jsIncludes name "GLONASS" then "Roscosmos"
    else if jsIncludes name "GALILEO" then "ESA"
    else if jsIncludes name "BEIDOU" then "CNSA"
    else if jsIncludes name "ISS" then "NASA/Roscosmos"
    else if jsIncludes name "TIANGONG" then "CNSA"
    else if jsIncludes name "GOES" || jsIncludes name "NOAA" then "NOAA"
    else if jsIncludes name "COSMOS" then "Roscosmos"
    else if jsIncludes name "USA" then "USSF"
    else if jsIncludes name "INSAT" || jsIncludes name "GSAT" then "ISRO"
    else "Unknown"
  let country :=
    if operator == "ISRO" then "India"
    else if operator == "Roscosmos" then "Russia"
    else if operator == "ESA" then "EU"
    else if operator == "CNSA" then "China"
    else if jsIncludes name "QZSS" then "Japan"
    else "USA"
  let missionType :=
    if jsIncludes name "GPS" || jsIncludes name "GLONASS" || jsIncludes name "GALILEO"
        || jsIncludes name "BEIDOU" || jsIncludes name "IRNSS" then "Navigation"
    else if jsIncludes name "ISS" || jsIncludes name "TIANGONG"
        || jsIncludes name "STATION" then "Space Station"
    else if jsIncludes name "GOES" || jsIncludes name "NOAA"
        || jsIncludes name "METEO" then "Weather"
    else if jsIncludes name "LANDSAT" || jsIncludes name "SENTINEL"
        || jsIncludes name "TERRA" || jsIncludes name "AQUA" then "Earth Observation"
    else if jsIncludes name "STARLINK" || jsIncludes name "ONEWEB" then "Communication"
    else if jsIncludes name "HUBBLE" || jsIncludes name "JWST"
        || jsIncludes name "CHANDRA" then "Science"
    else "Communication"
  let meanMotion := pf (jsSubstring tle.line2 52 63)
  let orbitClass :=
    if numLt meanMotion 2 then "GEO"
    else if numLt meanMotion 8 then "MEO"
    else if numGt meanMotion 16 then "HEO"
    else "LEO"
  { operator := operator, country := country, missionType := missionType
  , orbitClass := orbitClass }

/-- State `FilterState`; the four JS `Set<string>` fields are modelled by lists
(membership and emptiness are all the code uses). -/
structure FilterState where
  operators : List String
  missionTypes : List String
  orbitClasses : List String
  countries : List String
  searchQuery : String
  showOnlyVisible : Bool
  deriving DecidableEq, Repr

/-- Source `createDefaultFilters()`. -/
def createDefaultFilters : FilterState :=
  { operators := [], missionTypes := [], orbitClasses := [], countries := []
  , searchQuery := "", showOnlyVisible := false }

/-- Source `matchesFilters(tle, filters)`.  The source's early `return false`
branches become a chain of `if`s; `if (filters.searchQuery)` is JS string
truthiness, i.e. non-emptiness. -/
def matchesFilters (pf : String → Option ℚ) (tle : TLEData)
    (filters : FilterState) : Bool :=
  let meta := extractMetadata pf tle
  if filters.searchQuery != "" &&
      !(jsIncludes (jsToUpper tle.name) (jsToUpper filters.searchQuery)
        || jsIncludes (jsSubstring tle.line1 2 7) (jsToUpper filters.searchQuery))
    then false
  else if !filters.operators.isEmpty && !filters.operators.contains meta.operator
    then false
  else if !filters.missionTypes.isEmpty && !filters.missionTypes.contains meta.missionType
    then false
  else if !filters.orbitClasses.isEmpty && !filters.orbitClasses.contains meta.orbitClass
    then false
  else if !filters.countries.isEmpty && !filters.countries.contains meta.country
    then false
  else true

/-- Source `applyFilters(satellites, filters)`: `satellites.filter(...)` whose
inlined predicate is textually the same check chain as `matchesFilters`. -/
def applyFilters (pf : String → Option ℚ) (satellites : List TLEData)
    (filters : FilterState) : List TLEData :=
  satellites.filter (fun sat => matchesFilters pf sat filters)

/-- One JavaScript (IEEE-754 double) value of the visibility routine:
`NaN`, a signed infinity (`inf true` is `+Infinity`), or a finite value.
Finite arithmetic is modelled exactly over ℚ (rounding and overflow are
abstracted away); the NaN/Infinity propagation rules are those of JS. -/
inductive JSNum where
  | nan : JSNum
  | inf : Bool → JSNum
  | fin : ℚ → JSNum
  deriving DecidableEq, Repr

namespace JSNum

/-- JS `x + y`. -/
def add : JSNum → JSNum → JSNum
  | nan, _ => nan
  | _, nan => nan
  | inf s, inf t => if s = t then inf s else nan
  | inf s, fin _ => inf s
  | fin _, inf t => inf t
  | fin a, fin b => fin (a + b)

/-- JS unary `-x`. -/
def neg : JSNum → JSNum
  | nan => nan
  | inf s => inf (!s)
  | fin a => fin (-a)

/-- JS `x - y`. -/
def sub (x y : JSNum) : JSNum := add x (neg y)

/-- JS `x * y`. -/
def mul : JSNum → JSNum → JSNum
  | nan, _ => nan
  | _, nan => nan
  | inf s, inf t => inf (s == t)
  | inf s, fin b => if b = 0 then nan else inf (s == decide (0 < b))
  | fin a, inf t => if a = 0 then nan else inf (t == decide (0 < a))
  | fin a, fin b => fin (a * b)

/-- JS `x / y` (zero is unsigned here: `a / 0` for positive `a` is
`+Infinity`, `0 / 0` is `NaN`). -/
def div : JSNum → JSNum → JSNum
  | nan, _ => nan
  | _, nan => nan
  | inf _, inf _ => nan
  | inf s, fin b => if b = 0 then inf s else inf (s == decide (0 < b))
  | fin _, inf _ => fin 0
  | fin a, fin b =>
    if b = 0 then (if a = 0 then nan else inf (decide (0 < a))) else fin (a / b)

/-- JS `x < y` (false whenever either side is `NaN`). -/
def lt : JSNum → JSNum → Bool
  | nan, _ => false
  | _, nan => false
  | inf s, inf t => !s && t
  | inf s, fin _ => !s
  | fin _, inf t => t
  | fin a, fin b => a < b

/-- JS `x > y` (false whenever either side is `NaN`). -/
def gt (x y : JSNum) : Bool := lt y x

end JSNum

/-- The `Math` intrinsics `calculateVisibility` calls, kept abstract: any
implementation of cos/sin/sqrt/asin/atan2 and the constant `Math.PI`. -/
structure MathImpl where
  cos : JSNum → JSNum
  sin : JSNum → JSNum
  sqrt : JSNum → JSNum
  asin : JSNum → JSNum
  atan2 : JSNum → JSNum → JSNum
  pi : JSNum

/-- Result record `SatelliteVisibility`. -/
structure SatelliteVisibility where
  isVisible : Bool
  azimuth : JSNum
  elevation : JSNum
  range : JSNum

/-- Source `calculateVisibility(userLat, userLng, userAlt, satLat, satLng, satAlt)`,
mirroring the source expression for expression (association of the JS
left-to-right `*`/`+` chains included). -/
def calculateVisibility (M : MathImpl)
    (userLat userLng userAlt satLat satLng satAlt : JSNum) : SatelliteVisibility :=
  let lat1 := userLat.mul (M.pi.div (JSNum.fin 180))
  let lng1 := userLng.mul (M.pi.div (JSNum.fin 180))
  let lat2 := satLat.mul (M.pi.div (JSNum.fin 180))
  let lng2 := satLng.mul (M.pi.div (JSNum.fin 180))
  let userR := (JSNum.fin 6371).add (userAlt.div (JSNum.fin 1000))
  let userX := (userR.mul (M.cos lat1)).mul (M.cos lng1)
  let userY := (userR.mul (M.cos lat1)).mul (M.sin lng1)
  let userZ := userR.mul (M.sin lat1)
  let satR := (JSNum.fin 6371).add satAlt
  let satX := (satR.mul (M.cos lat2)).mul (M.cos lng2)
  let satY := (satR.mul (M.cos lat2)).mul (M.sin lng2)
  let satZ := satR.mul (M.sin lat2)
  let dx := satX.sub userX
  let dy := satY.sub userY
  let dz := satZ.sub userZ
  let range := M.sqrt (((dx.mul dx).add (dy.mul dy)).add (dz.mul dz))
  let upX := userX.div userR
  let upY := userY.div userR
  let upZ := userZ.div userR
  let dotProduct := (((dx.mul upX).add (dy.mul upY)).add (dz.mul upZ)).div range
  let elevation := (M.asin dotProduct).mul ((JSNum.fin 180).div M.pi)
  let north0 := ((M.sin lat1).neg).mul (M.cos lng1)
  let north1 := ((M.sin lat1).neg).mul (M.sin lng1)
  let north2 := M.cos lat1
  let east0 := (M.sin lng1).neg
  let east1 := M.cos lng1
  let east2 := JSNum.fin 0
  let satDir0 := dx.div range
  let satDir1 := dy.div range
  let satDir2 := dz.div range
  let northComponent :=
    ((satDir0.mul north0).add (satDir1.mul north1)).add (satDir2.mul north2)
  let eastComponent :=
    ((satDir0.mul east0).add (satDir1.mul east1)).add (satDir2.mul east2)
  let azimuthRaw := (M.atan2 eastComponent northComponent).mul ((JSNum.fin 180).div M.pi)
  let azimuth := if azimuthRaw.lt (JSNum.fin 0) then azimuthRaw.add (JSNum.fin 360)
    else azimuthRaw
  let isVisible := elevation.gt (JSNum.fin (-(1/2 : ℚ)))
  { isVisible := isVisible, azimuth := azimuth, elevation := elevation
  , range := range }

/-- The name patterns of `extractMetadata`'s operator chain, in source order. -/
def operatorPatterns : List String :=
  ["STARLINK", "ONEWEB", "GPS", "IRNSS", "NAVIC", "GLONASS", "GALILEO", "BEIDOU",
   "ISS", "TIANGONG", "GOES", "NOAA", "COSMOS", "USA", "INSAT", "GSAT"]

/-- The name patterns of `extractMetadata`'s mission-type chain, in source order. -/
def missionPatterns : List String :=
  ["GPS", "GLONASS", "GALILEO", "BEIDOU", "IRNSS", "ISS", "TIANGONG", "STATION",
   "GOES", "NOAA", "METEO", "LANDSAT", "SENTINEL", "TERRA", "AQUA",
   "STARLINK", "ONEWEB", "HUBBLE", "JWST", "CHANDRA"]

/-- All textual classification patterns of `extractMetadata`. -/
def classificationPatterns : List String :=
  operatorPatterns ++ missionPatterns

/-- A concrete `MathImpl` used to instantiate universally quantified theorems
on closed inputs (witnesses); it plays the role of one arbitrary member of
the abstraction. -/
def mathStub : MathImpl :=
  { cos := fun _ => JSNum.fin 1, sin := fun _ => JSNum.fin 0
  , sqrt := fun _ => JSNum.fin 1, asin := fun _ => JSNum.fin 0
  , atan2 := fun _ _ => JSNum.fin 0, pi := JSNum.fin 180 }

/-- A second concrete `MathImpl`, this one agreeing with the real `Math`
object on the facts `sqrt(0) = 0` and `asin(NaN) = NaN`. -/
def mathNanStub : MathImpl :=
  { cos := fun _ => JSNum.fin 1, sin := fun _ => JSNum.fin 0
  , sqrt := fun _ => JSNum.fin 0, asin := fun x => x
  , atan2 := fun _ _ => JSNum.fin 0, pi := JSNum.fin 3 }

/-- Transcription of claim C1's tiering policy, for comparison with the
source's `fetchTLEData`: it differs in the failure tier, where the claim
returns the stale entry only when it is an entry "for that source". -/
def fetchTLEDataPerClaim (cached : Option CachedTLEData) (now : Int) (url : String)
    (outcome : Option String) : List TLEData :=
  match cached with
  | some c =>
    if isCacheValid now c && (c.source == url) then c.data
    else
      match outcome with
      | some text =>
        let data := parseTLEData text
        if data.length < 10 then
          (if c.source == url then c.data else FALLBACK_SATELLITES)
        else data
      | none => if c.source == url then c.data else FALLBACK_SATELLITES
  | none =>
    match outcome with
    | some text =>
      let data := parseTLEData text
      if data.length < 10 then FALLBACK_SATELLITES else data
    | none => FALLBACK_SATELLITES

/-- Transcription of claim C5's parsing rule, for comparison with the
source's `parseTLEData`: it groups the consecutive NON-EMPTY lines in
triples, where the source groups all lines by absolute position. -/
def parseTLEDataPerClaim (rawTle : String) : List TLEData :=
  parseTriples ((jsSplitNewline (jsTrim rawTle)).filter (fun l => l ≠ ""))

/-- Sample record with catalog number 25544 (for closed instantiations). -/
def sampleISS : TLEData :=
  { name := "ISS (ZARYA)", line1 := "1 25544U 98067A", line2 := "2 25544" }

/-- A second record carrying the same catalog number 25544, as delivered by
an overlapping second source. -/
def sampleISSAlt : TLEData :=
  { name := "ISS COPY", line1 := "1 25544U 98067X", line2 := "2 25544" }

/-- Sample record with the distinct catalog number 44713. -/
def sampleStar : TLEData :=
  { name := "STARLINK-1007", line1 := "1 44713U 19074A", line2 := "2 44713" }

/-- A stale persisted cache slot whose entry came from source `"B"`. -/
def staleCacheB : CachedTLEData :=
  { data := [sampleStar], timestamp := 0, source := "B" }

/-- The orbit-class field of `extractMetadata`, exposed as an equation. -/
lemma extractMetadata_orbitClass (pf : String → Option ℚ) (tle : TLEData) :
    (extractMetadata pf tle).orbitClass =
      (if numLt (pf (jsSubstring tle.line2 52 63)) 2 then "GEO"
       else if numLt (pf (jsSubstring tle.line2 52 63)) 8 then "MEO"
       else if numGt (pf (jsSubstring tle.line2 52 63)) 16 then "HEO"
       else "LEO") := rfl

/-- C4: when the mean-motion field (line2 columns 53–63) parses to `m`, the
orbit class follows the ordered chain GEO (`m < 2`), MEO (`m < 8`),
HEO (`m > 16`), else LEO; in particular 1 ↦ GEO, 4 ↦ MEO, 14 ↦ LEO,
17 ↦ HEO, and the boundary values 8 and 16 both fall through to LEO under
the one total ordering of the rules. -/
theorem orbitClass_mean_motion_thresholds (pf : String → Option ℚ) (tle : TLEData)
    (m : ℚ) (h : pf (jsSubstring tle.line2 52 63) = some m) :
    (extractMetadata pf tle).orbitClass =
      (if m < 2 then "GEO" else if m < 8 then "MEO" else if 16 < m then "HEO"
       else "LEO") ∧
    (extractMetadata (fun _ => some 1) tle).orbitClass = "GEO" ∧
    (extractMetadata (fun _ => some 4) tle).orbitClass = "MEO" ∧
    (extractMetadata (fun _ => some 14) tle).orbitClass = "LEO" ∧
    (extractMetadata (fun _ => some 17) tle).orbitClass = "HEO" ∧
    (extractMetadata (fun _ => some 8) tle).orbitClass = "LEO" ∧
    (extractMetadata (fun _ => some 16) tle).orbitClass = "LEO" := by
  refine ⟨?_, ?_, ?_, ?_, ?_, ?_, ?_⟩ <;>
    simp only [extractMetadata_orbitClass, h, numLt, numGt, decide_eq_true_eq] <;>
    norm_num

/-- Closed witness for `orbitClass_mean_motion_thresholds`. -/
theorem orbitClass_mean_motion_thresholds_witness :
    ((fun _ : String => some (1 : ℚ))
        (jsSubstring (TLEData.mk "A" "1 X" "2 Y").line2 52 63) = some 1) ∧
    (extractMetadata (fun _ => some 1) (TLEData.mk "A" "1 X" "2 Y")).orbitClass =
      (if (1 : ℚ) < 2 then "GEO" else if (1 : ℚ) < 8 then "MEO"
       else if (16 : ℚ) < 1 then "HEO" else "LEO") :=
  ⟨rfl, (orbitClass_mean_motion_thresholds (fun _ => some 1)
    (TLEData.mk "A" "1 X" "2 Y") 1 rfl).1⟩

/-- C9: a record whose (uppercased) name contains none of the textual
classification patterns gets the safe defaults: operator `Unknown` and
mission type `Communication`; `extractMetadata` is total so this path never
fails. -/
theorem extractMetadata_unmatched_defaults (pf : String → Option ℚ) (tle : TLEData)
    (h : ∀ p ∈ classificationPatterns, jsIncludes (jsToUpper tle.name) p = false) :
    (extractMetadata pf tle).operator = "Unknown" ∧
    (extractMetadata pf tle).missionType = "Communication" := by
  simp only [classificationPatterns, operatorPatterns, missionPatterns,
    List.forall_mem_append, List.forall_mem_cons, List.forall_mem_nil] at h
  obtain ⟨⟨h1, h2, h3, h4, h5, h6, h7, h8, h9, h10, h11, h12, h13, h14, h15, h16, -⟩,
    ⟨g1, g2, g3, g4, g5, g6, g7, g8, g9, g10, g11, g12, g13, g14, g15, g16, g17,
      g18, g19, g20, -⟩⟩ := h
  unfold extractMetadata
  simp [h1, h2, h3, h4, h5, h6, h7, h8, h9, h10, h11, h12, h13, h14, h15, h16,
    g8, g11, g12, g13, g14, g15, g18, g19, g20]

/-- Closed witness for `extractMetadata_unmatched_defaults`. -/
theorem extractMetadata_unmatched_defaults_witness :
    (∀ p ∈ classificationPatterns,
      jsIncludes (jsToUpper (TLEData.mk "OBJ-X" "1 X" "2 Y").name) p = false) ∧
    (extractMetadata (fun _ => none) (TLEData.mk "OBJ-X" "1 X" "2 Y")).operator =
      "Unknown" ∧
    (extractMetadata (fun _ => none) (TLEData.mk "OBJ-X" "1 X" "2 Y")).missionType =
      "Communication" :=
  ⟨by decide, (extractMetadata_unmatched_defaults (fun _ => none) _ (by decide)).1,
    (extractMetadata_unmatched_defaults (fun _ => none) _ (by decide)).2⟩

/-- C10: a record whose name matches no operator pattern and does not contain
`QZSS` is attributed to country `USA` by default, while its operator is
`Unknown`. -/
theorem extractMetadata_default_country_usa (pf : String → Option ℚ) (tle : TLEData)
    (h : ∀ p ∈ operatorPatterns, jsIncludes (jsToUpper tle.name) p = false)
    (hq : jsIncludes (jsToUpper tle.name) "QZSS" = false) :
    (extractMetadata pf tle).country = "USA" ∧
    (extractMetadata pf tle).operator = "Unknown" := by
  simp only [operatorPatterns, List.forall_mem_cons, List.forall_mem_nil] at h
  obtain ⟨h1, h2, h3, h4, h5, h6, h7, h8, h9, h10, h11, h12, h13, h14, h15, h16, -⟩ := h
  unfold extractMetadata
  simp [h1, h2, h3, h4, h5, h6, h7, h8, h9, h10, h11, h12, h13, h14, h15, h16, hq]

/-- Closed witness for `extractMetadata_default_country_usa`. -/
theorem extractMetadata_default_country_usa_witness :
    (∀ p ∈ operatorPatterns,
      jsIncludes (jsToUpper (TLEData.mk "OBJ-Y" "1 X" "2 Y").name) p = false) ∧
    (jsIncludes (jsToUpper (TLEData.mk "OBJ-Y" "1 X" "2 Y").name) "QZSS" = false) ∧
    (extractMetadata (fun _ => none) (TLEData.mk "OBJ-Y" "1 X" "2 Y")).country =
      "USA" :=
  ⟨by decide, by decide,
    (extractMetadata_default_country_usa (fun _ => none) _ (by decide) (by decide)).1⟩

/-- C8: the filter predicate matches everything under the default criteria
(all sets empty, empty query, visibility flag off); each non-empty category
set constrains the record's metadata value to be a member; a non-empty
search query requires the uppercased name or the catalog-number field to
contain it; and the overall match is the conjunction of these constraints.
`applyFilters` keeps exactly the matching records. -/
theorem filter_semantics (pf : String → Option ℚ) (tle : TLEData)
    (filters : FilterState) :
    (matchesFilters pf tle createDefaultFilters = true) ∧
    (matchesFilters pf tle filters = true ↔
      ((filters.searchQuery = "" ∨
         jsIncludes (jsToUpper tle.name) (jsToUpper filters.searchQuery) = true ∨
         jsIncludes (jsSubstring tle.line1 2 7) (jsToUpper filters.searchQuery) = true) ∧
       (filters.operators = [] ∨
         (extractMetadata pf tle).operator ∈ filters.operators) ∧
       (filters.missionTypes = [] ∨
         (extractMetadata pf tle).missionType ∈ filters.missionTypes) ∧
       (filters.orbitClasses = [] ∨
         (extractMetadata pf tle).orbitClass ∈ filters.orbitClasses) ∧
       (filters.countries = [] ∨
         (extractMetadata pf tle).country ∈ filters.countries))) ∧
    (∀ sats : List TLEData, tle ∈ applyFilters pf sats filters ↔
      (tle ∈ sats ∧ matchesFilters pf tle filters = true)) := by
  have hgate : ∀ (b r : Bool),
      (if b then false else r) = true ↔ (b = false ∧ r = true) := by
    intro b r; cases b <;> simp
  refine ⟨?_, ?_, ?_⟩
  · simp [matchesFilters, createDefaultFilters]
  · unfold matchesFilters
    rw [hgate, hgate, hgate, hgate, hgate]
    cases hA : jsIncludes (jsToUpper tle.name) (jsToUpper filters.searchQuery) <;>
      cases hB : jsIncludes (jsSubstring tle.line1 2 7)
        (jsToUpper filters.searchQuery) <;>
        simp [List.isEmpty_iff, hA, hB] <;> tauto
  · intro sats
    simp [applyFilters, List.mem_filter]

/-- C2: `calculateVisibility` reports a target visible exactly when its
computed elevation exceeds −0.5 degrees (for every `Math` implementation
and all inputs); in particular a finite elevation in (−0.5, 0] — below the
strict geometric horizon — is still reported visible. -/
theorem visibility_iff_elevation_above_neg_half (M : MathImpl)
    (userLat userLng userAlt satLat satLng satAlt : JSNum) :
    ((calculateVisibility M userLat userLng userAlt satLat satLng satAlt).isVisible =
      JSNum.gt
        (calculateVisibility M userLat userLng userAlt satLat satLng satAlt).elevation
        (JSNum.fin (-(1/2 : ℚ)))) ∧
    (∀ q : ℚ,
      (calculateVisibility M userLat userLng userAlt satLat satLng satAlt).elevation =
        JSNum.fin q → -(1/2 : ℚ) < q → q ≤ 0 →
      (calculateVisibility M userLat userLng userAlt satLat satLng satAlt).isVisible =
        true) := by
  constructor
  · rfl
  · intro q hq hlt _
    have h1 : (calculateVisibility M userLat userLng userAlt satLat satLng
          satAlt).isVisible =
        JSNum.gt
          (calculateVisibility M userLat userLng userAlt satLat satLng satAlt).elevation
          (JSNum.fin (-(1/2 : ℚ))) := rfl
    rw [h1, hq]
    simp [JSNum.gt, JSNum.lt]
    linarith

/-- Closed witness for `visibility_iff_elevation_above_neg_half`. -/
theorem visibility_iff_elevation_above_neg_half_witness :
    ((calculateVisibility mathStub (JSNum.fin 0) (JSNum.fin 0) (JSNum.fin 0)
        (JSNum.fin 0) (JSNum.fin 0) (JSNum.fin 0)).elevation = JSNum.fin 0 ∧
      -(1/2 : ℚ) < 0 ∧ (0 : ℚ) ≤ 0) ∧
    (calculateVisibility mathStub (JSNum.fin 0) (JSNum.fin 0) (JSNum.fin 0)
        (JSNum.fin 0) (JSNum.fin 0) (JSNum.fin 0)).isVisible = true :=
  ⟨⟨by norm_num [calculateVisibility, mathStub, JSNum.mul, JSNum.add, JSNum.div,
        JSNum.sub, JSNum.neg], by norm_num, le_refl 0⟩,
    (visibility_iff_elevation_above_neg_half mathStub _ _ _ _ _ _).2 0
      (by norm_num [calculateVisibility, mathStub, JSNum.mul, JSNum.add, JSNum.div,
        JSNum.sub, JSNum.neg]) (by norm_num) (le_refl 0)⟩

/-- C3 (evaluating the code at the failing input): when observer and target
coincide, `calculateVisibility` evaluates to range 0, but its elevation is
`NaN` — the division `dotProduct = (…)/range` is unguarded, so `0/0 = NaN`
flows through `asin` — contradicting the claim that the elevation is
well-defined via a guarded limit (the call itself cannot throw: the model,
like the JS function, is total).  Hypotheses only pin the abstract `Math`
object to facts true of the real one (finite cos/sin on finite inputs,
`Math.PI` finite, `sqrt(0) = 0`, `asin(NaN) = NaN`). -/
theorem visibility_range_zero_elevation_nan (M : MathImpl) (lat lng : ℚ)
    (hpi : ∃ p : ℚ, M.pi = JSNum.fin p)
    (hcos : ∀ q : ℚ, ∃ r : ℚ, M.cos (JSNum.fin q) = JSNum.fin r)
    (hsin : ∀ q : ℚ, ∃ r : ℚ, M.sin (JSNum.fin q) = JSNum.fin r)
    (hsqrt : M.sqrt (JSNum.fin 0) = JSNum.fin 0)
    (hasin : M.asin JSNum.nan = JSNum.nan) :
    (calculateVisibility M (JSNum.fin lat) (JSNum.fin lng) (JSNum.fin 0)
        (JSNum.fin lat) (JSNum.fin lng) (JSNum.fin 0)).range = JSNum.fin 0 ∧
    (calculateVisibility M (JSNum.fin lat) (JSNum.fin lng) (JSNum.fin 0)
        (JSNum.fin lat) (JSNum.fin lng) (JSNum.fin 0)).elevation = JSNum.nan ∧
    (calculateVisibility M (JSNum.fin lat) (JSNum.fin lng) (JSNum.fin 0)
        (JSNum.fin lat) (JSNum.fin lng) (JSNum.fin 0)).isVisible = false := by
  obtain ⟨p, hp⟩ := hpi
  obtain ⟨c1, hc1⟩ := hcos (lat * (p / 180))
  obtain ⟨c2, hc2⟩ := hcos (lng * (p / 180))
  obtain ⟨s1, hs1⟩ := hsin (lat * (p / 180))
  obtain ⟨s2, hs2⟩ := hsin (lng * (p / 180))
  refine ⟨?_, ?_, ?_⟩ <;>
    simp [calculateVisibility, hp, hc1, hc2, hs1, hs2, hsqrt, hasin,
      JSNum.mul, JSNum.add, JSNum.div, JSNum.sub, JSNum.neg, JSNum.gt, JSNum.lt,
      (show (180 : ℚ) ≠ 0 by norm_num), (show (1000 : ℚ) ≠ 0 by norm_num),
      (show (6371 : ℚ) ≠ 0 by norm_num)]

/-- Closed witness for `visibility_range_zero_elevation_nan`. -/
theorem visibility_range_zero_elevation_nan_witness :
    ((∃ p : ℚ, mathNanStub.pi = JSNum.fin p) ∧
      (∀ q : ℚ, ∃ r : ℚ, mathNanStub.cos (JSNum.fin q) = JSNum.fin r) ∧
      (∀ q : ℚ, ∃ r : ℚ, mathNanStub.sin (JSNum.fin q) = JSNum.fin r) ∧
      mathNanStub.sqrt (JSNum.fin 0) = JSNum.fin 0 ∧
      mathNanStub.asin JSNum.nan = JSNum.nan) ∧
    (calculateVisibility mathNanStub (JSNum.fin 0) (JSNum.fin 0) (JSNum.fin 0)
        (JSNum.fin 0) (JSNum.fin 0) (JSNum.fin 0)).elevation = JSNum.nan :=
  ⟨⟨⟨3, rfl⟩, fun _ => ⟨1, rfl⟩, fun _ => ⟨0, rfl⟩, rfl, rfl⟩,
    (visibility_range_zero_elevation_nan mathNanStub 0 0 ⟨3, rfl⟩
      (fun _ => ⟨1, rfl⟩) (fun _ => ⟨0, rfl⟩) rfl rfl).2.1⟩

/-- A record kept by the merge loop has a key unseen on entry, and is the
first record with its key in the traversal order. -/
lemma dedupeByKey_first_seen :
    ∀ (l : List TLEData) (seen : List String) (r : TLEData),
      r ∈ dedupeByKey seen l →
      noradKey r ∉ seen ∧ l.find? (fun s => noradKey s == noradKey r) = some r := by
  intro l
  induction l with
  | nil => intro seen r hr; simp [dedupeByKey] at hr
  | cons sat rest ih =>
    intro seen r hr
    by_cases hk : noradKey sat ∈ seen
    · rw [dedupeByKey, if_pos hk] at hr
      obtain ⟨hns, hfind⟩ := ih seen r hr
      have hne : (noradKey sat == noradKey r) = false := by
        rw [beq_eq_false_iff_ne]
        intro heq
        exact hns (heq ▸ hk)
      exact ⟨hns, by rw [List.find?_cons_of_neg _ (by simp [hne]), hfind]⟩
    · rw [dedupeByKey, if_neg hk] at hr
      rcases List.mem_cons.mp hr with h | h
      · subst h
        exact ⟨hk, by rw [List.find?_cons_of_pos _ (by simp)]⟩
      · obtain ⟨hns, hfind⟩ := ih _ r h
        have hr1 : noradKey r ≠ noradKey sat := by
          intro heq; exact hns (by simp [heq])
        have hr2 : noradKey r ∉ seen := fun hx => hns (by simp [hx])
        have hne : (noradKey sat == noradKey r) = false := by
          rw [beq_eq_false_iff_ne]; exact fun heq => hr1 heq.symm
        exact ⟨hr2, by rw [List.find?_cons_of_neg _ (by simp [hne]), hfind]⟩

/-- The merge loop emits exactly one record per distinct unseen key. -/
lemma dedupeByKey_length :
    ∀ (l : List TLEData) (seen : List String),
      (dedupeByKey seen l).length =
        ((l.map noradKey).toFinset \ seen.toFinset).card := by
  intro l
  induction l with
  | nil => intro seen; simp [dedupeByKey]
  | cons sat rest ih =>
    intro seen
    by_cases hk : noradKey sat ∈ seen
    · rw [dedupeByKey, if_pos hk, ih]
      congr 1
      simp only [List.map_cons, List.toFinset_cons]
      rw [Finset.insert_sdiff_of_mem _ (List.mem_toFinset.mpr hk)]
    · rw [dedupeByKey, if_neg hk]
      simp only [List.length_cons, ih, List.map_cons, List.toFinset_cons]
      rw [Finset.sdiff_insert]
      rw [Finset.insert_sdiff_of_not_mem _ (by simp [hk])]
      set X := (rest.map noradKey).toFinset \ seen.toFinset with hX
      by_cases hmem : noradKey sat ∈ X
      · rw [Finset.card_insert_of_mem hmem]
        have : 0 < X.card := Finset.card_pos.mpr ⟨_, hmem⟩
        rw [Finset.card_erase_of_mem hmem]
        omega
      · rw [Finset.card_insert_of_not_mem hmem,
          Finset.erase_eq_of_not_mem hmem]

/-- Every unseen key occurring in the input survives into the merge. -/
lemma dedupeByKey_complete :
    ∀ (l : List TLEData) (seen : List String) (k : String),
      k ∈ l.map noradKey → k ∉ seen →
      ∃ r ∈ dedupeByKey seen l, noradKey r = k := by
  intro l
  induction l with
  | nil => simp
  | cons sat rest ih =>
    intro seen k hk hks
    by_cases hseen : noradKey sat ∈ seen
    · rw [dedupeByKey, if_pos hseen]
      rcases List.mem_cons.mp hk with heq | hmem
      · exact absurd (heq ▸ hseen) hks
      · exact ih seen k hmem hks
    · rw [dedupeByKey, if_neg hseen]
      by_cases hkk : k = noradKey sat
      · exact ⟨sat, List.mem_cons_self _ _, hkk.symm⟩
      · rcases List.mem_cons.mp hk with heq | hmem
        · exact absurd heq hkk
        · obtain ⟨r, hr, hrk⟩ := ih (noradKey sat :: seen) k hmem
            (by simp [hkk, hks])
          exact ⟨r, List.mem_cons_of_mem _ hr, hrk⟩

/-- C7: the multi-source merge of `fetchAllSatellites` deduplicates the
concatenated per-source lists by the catalog-number key (line1 columns 3–7):
each kept record is the first-seen one under its key, the merged count
equals the number of distinct keys, every key is represented, and the merge
is what `fetchAllSatellites` returns whenever it is non-empty. -/
theorem merge_dedup_first_seen (results : List (List TLEData)) :
    (∀ r ∈ dedupeByKey [] results.flatten,
      results.flatten.find? (fun s => noradKey s == noradKey r) = some r) ∧
    (dedupeByKey [] results.flatten).length =
      (results.flatten.map noradKey).toFinset.card ∧
    (∀ k ∈ results.flatten.map noradKey,
      ∃ r ∈ dedupeByKey [] results.flatten, noradKey r = k) ∧
    (dedupeByKey [] results.flatten ≠ [] →
      fetchAllSatellites results = dedupeByKey [] results.flatten) := by
  refine ⟨?_, ?_, ?_, ?_⟩
  · intro r hr
    exact (dedupeByKey_first_seen results.flatten [] r hr).2
  · rw [dedupeByKey_length]
    simp
  · intro k hk
    exact dedupeByKey_complete results.flatten [] k hk (by simp)
  · intro hne
    unfold fetchAllSatellites
    rw [if_pos (by simpa [List.length_pos] using hne)]

/-- Closed witness for `merge_dedup_first_seen`: two sources overlap on
catalog number 25544; the first-seen record wins and the merged count is
the number of distinct keys (2). -/
theorem merge_dedup_first_seen_witness :
    ([[sampleISS], [sampleISSAlt, sampleStar]] : List (List TLEData)).flatten.find?
        (fun s => noradKey s == noradKey sampleISS) = some sampleISS ∧
    (dedupeByKey []
        ([[sampleISS], [sampleISSAlt, sampleStar]] : List (List TLEData)).flatten).length =
      (([[sampleISS], [sampleISSAlt, sampleStar]] : List (List TLEData)).flatten.map
        noradKey).toFinset.card ∧
    fetchAllSatellites [[sampleISS], [sampleISSAlt, sampleStar]] =
      dedupeByKey []
        ([[sampleISS], [sampleISSAlt, sampleStar]] : List (List TLEData)).flatten :=
  ⟨(merge_dedup_first_seen [[sampleISS], [sampleISSAlt, sampleStar]]).1 sampleISS
      (by decide),
    (merge_dedup_first_seen [[sampleISS], [sampleISSAlt, sampleStar]]).2.1,
    (merge_dedup_first_seen [[sampleISS], [sampleISSAlt, sampleStar]]).2.2.2
      (by decide)⟩

/-- Unfolding of the triple acceptance test. -/
lemma tleTripleOk_spec (name l1 l2 : String) (h : tleTripleOk name l1 l2 = true) :
    jsStartsWith l1 "1 " = true ∧ jsStartsWith l2 "2 " = true ∧ name ≠ "" := by
  simp only [tleTripleOk, Bool.and_eq_true, decide_eq_true_eq] at h
  refine ⟨h.1.1, h.1.2, ?_⟩
  intro heq
  subst heq
  simp at h

/-- Every parsed record passed the acceptance test (its stored fields are
the trimmed lines). -/
lemma parseTriples_sound (r : TLEData) :
    ∀ lines, r ∈ parseTriples lines → tleTripleOk r.name r.line1 r.line2 = true := by
  intro lines
  induction lines using parseTriples.induct with
  | case1 n l1 l2 rest ih =>
    intro hr
    rw [parseTriples] at hr
    rcases List.mem_append.mp hr with h | h
    · by_cases hok : tleTripleOk (jsTrim n) (jsTrim l1) (jsTrim l2) = true
      · rw [if_pos hok] at h
        simp only [List.mem_singleton] at h
        subst h
        simpa using hok
      · rw [if_neg hok] at h
        simp at h
    · exact ih h
  | case2 l hl =>
    intro hr
    simp [parseTriples] at hr

/-- Records parsed from a suffix survive prepending a block of lines whose
length is a multiple of three (the triple walk is position-aligned). -/
lemma parseTriples_mem_append (x : TLEData) :
    ∀ (n : ℕ) (pre rest : List String), pre.length = 3 * n →
      x ∈ parseTriples rest → x ∈ parseTriples (pre ++ rest) := by
  intro n
  induction n with
  | zero =>
    intro pre rest h hx
    rw [List.length_eq_zero] at h
    subst h
    simpa using hx
  | succ n ih =>
    intro pre rest h hx
    rcases pre with _ | ⟨a, _ | ⟨b, _ | ⟨c, pre'⟩⟩⟩
    · simp only [List.length_nil] at h; omega
    · simp only [List.length_cons, List.length_nil] at h; omega
    · simp only [List.length_cons, List.length_nil] at h; omega
    · simp only [List.length_cons] at h
      rw [List.cons_append, List.cons_append, List.cons_append, parseTriples]
      exact List.mem_append_right _ (ih pre' rest (by omega) hx)

/-- C5 (amended): `parseTLEData` walks ALL lines of the trimmed input in
consecutive triples by absolute position (blank lines included); a triple is
accepted exactly when its trimmed second line starts with `1 `, its trimmed
third line starts with `2 ` and its trimmed name is non-empty; a malformed
triple is skipped silently; every output record satisfies the check. -/
theorem parse_grouping_by_position :
    (∀ raw : String, ∀ r ∈ parseTLEData raw,
      jsStartsWith r.line1 "1 " = true ∧ jsStartsWith r.line2 "2 " = true ∧
        r.name ≠ "") ∧
    (∀ (n l1 l2 : String) (rest : List String),
      tleTripleOk (jsTrim n) (jsTrim l1) (jsTrim l2) = false →
      parseTriples (n :: l1 :: l2 :: rest) = parseTriples rest) ∧
    (∀ (pre : List String) (n l1 l2 : String) (rest : List String),
      3 ∣ pre.length →
      tleTripleOk (jsTrim n) (jsTrim l1) (jsTrim l2) = true →
      ({ name := jsTrim n, line1 := jsTrim l1, line2 := jsTrim l2 } : TLEData) ∈
        parseTriples (pre ++ n :: l1 :: l2 :: rest)) ∧
    (∀ raw : String, parseTLEData raw = parseTriples (jsSplitNewline (jsTrim raw))) := by
  refine ⟨?_, ?_, ?_, fun _ => rfl⟩
  · intro raw r hr
    exact tleTripleOk_spec _ _ _ (parseTriples_sound r _ hr)
  · intro n l1 l2 rest hok
    rw [parseTriples, if_neg (by simp [hok])]
    rfl
  · intro pre n l1 l2 rest hdvd hok
    obtain ⟨m, hm⟩ := hdvd
    refine parseTriples_mem_append _ m pre _ (by omega) ?_
    rw [parseTriples, if_pos hok]
    exact List.mem_append_left _ (List.mem_singleton.mpr rfl)

/-- C5 counterexample: on input with a blank line between the name and the
element lines, the source parser returns no records, while the claim's
"group the consecutive non-empty lines" rule accepts the triple — the claim
as stated is false of the code. -/
theorem parse_nonempty_grouping_counterexample :
    parseTLEData "ISS (ZARYA)\n\n1 25544U\n2 25544" = [] ∧
    parseTLEDataPerClaim "ISS (ZARYA)\n\n1 25544U\n2 25544" =
      [{ name := "ISS (ZARYA)", line1 := "1 25544U", line2 := "2 25544" }] ∧
    parseTLEData "ISS (ZARYA)\n\n1 25544U\n2 25544" ≠
      parseTLEDataPerClaim "ISS (ZARYA)\n\n1 25544U\n2 25544" := by
  refine ⟨by decide, by decide, by decide⟩

/-- Closed witness for `parse_grouping_by_position`. -/
theorem parse_grouping_by_position_witness :
    (({ name := "ISS", line1 := "1 25544U", line2 := "2 25544" } : TLEData) ∈
      parseTLEData "ISS\n1 25544U\n2 25544") ∧
    (jsStartsWith "1 25544U" "1 " = true ∧ jsStartsWith "2 25544" "2 " = true ∧
      ("ISS" : String) ≠ "") :=
  ⟨by decide,
    parse_grouping_by_position.1 "ISS\n1 25544U\n2 25544"
      { name := "ISS", line1 := "1 25544U", line2 := "2 25544" } (by decide)⟩

/-- The catch-branch fallback is never empty. -/
lemma fallbackData_ne_nil (cached : Option CachedTLEData) :
    fallbackData cached ≠ [] := by
  cases cached with
  | none => simp [fallbackData, FALLBACK_SATELLITES]
  | some c =>
    simp only [fallbackData]
    by_cases h : c.data.length > 0
    · rw [if_pos h]
      exact List.length_pos.mp h
    · rw [if_neg h]
      simp [FALLBACK_SATELLITES]

/-- C1 (amended): `fetchTLEData` resolves in tiers — a cached entry for the
exact source younger than 6 hours is returned with the fetch outcome left
unused (no network dependence); on any fetch failure (network error,
non-2xx, timeout, or an under-10 parse yield) it degrades to the stale
cached entry WHATEVER ITS SOURCE provided it is non-empty, and to the
built-in fallback set when no (non-empty) entry exists; the failure-path
result is never the empty list. -/
theorem tiered_fetch_fallback (cached : Option CachedTLEData) (now : Int)
    (url : String) (outcome : Option String) :
    (∀ c, cached = some c →
      (isCacheValid now c && (c.source == url)) = true →
      ∀ o₂ : Option String, (fetchTLEData cached now url o₂).1 = c.data) ∧
    ((∀ c, cached = some c → (isCacheValid now c && (c.source == url)) = false) →
      (outcome = none ∨ ∃ t, outcome = some t ∧ (parseTLEData t).length < 10) →
      (fetchTLEData cached now url outcome).1 = fallbackData cached) ∧
    (∀ c, cached = some c → c.data ≠ [] → fallbackData cached = c.data) ∧
    (cached = none → fallbackData cached = FALLBACK_SATELLITES) ∧
    (∀ c, cached = some c → c.data = [] → fallbackData cached = FALLBACK_SATELLITES) ∧
    fallbackData cached ≠ [] := by
  refine ⟨?_, ?_, ?_, ?_, ?_, fallbackData_ne_nil cached⟩
  · intro c hc hcond o₂
    subst hc
    simp [fetchTLEData, hcond]
  · intro hmiss hfail
    cases cached with
    | none =>
      rcases hfail with hnone | ⟨t, ht, hlt⟩
      · subst hnone; rfl
      · subst ht; simp [fetchTLEData, tryFetchTLE, hlt]
    | some c =>
      have hcond := hmiss c rfl
      rcases hfail with hnone | ⟨t, ht, hlt⟩
      · subst hnone; simp [fetchTLEData, hcond, tryFetchTLE]
      · subst ht; simp [fetchTLEData, hcond, tryFetchTLE, hlt]
  · intro c hc hne
    subst hc
    simp [fallbackData, List.length_pos.mpr hne]
  · intro h; subst h; rfl
  · intro c hc h
    subst hc
    simp [fallbackData, h]

/-- C1 counterexample: with a stale cache entry from source `"B"` and a
failing fetch of source `"A"`, the code returns B's records, while the
claim's "stale entry for that source" tiering returns the built-in
fallback — the claim as stated is false of the code. -/
theorem stale_cache_ignores_source_counterexample :
    (fetchTLEData (some staleCacheB) 100000000 "A" none).1 = [sampleStar] ∧
    fetchTLEDataPerClaim (some staleCacheB) 100000000 "A" none =
      FALLBACK_SATELLITES ∧
    (fetchTLEData (some staleCacheB) 100000000 "A" none).1 ≠
      fetchTLEDataPerClaim (some staleCacheB) 100000000 "A" none := by
  refine ⟨by decide, by decide, by decide⟩

/-- Closed witness for `tiered_fetch_fallback`. -/
theorem tiered_fetch_fallback_witness :
    (fetchTLEData (some staleCacheB) 100000000 "A" none).1 =
      fallbackData (some staleCacheB) ∧
    fallbackData (some staleCacheB) = staleCacheB.data ∧
    fallbackData (some staleCacheB) ≠ [] :=
  ⟨(tiered_fetch_fallback (some staleCacheB) 100000000 "A" none).2.1
      (fun c hc => by injection hc with h; subst h; decide) (Or.inl rfl),
    (tiered_fetch_fallback (some staleCacheB) 100000000 "A" none).2.2.1 staleCacheB rfl
      (by decide),
    (tiered_fetch_fallback (some staleCacheB) 100000000 "A" none).2.2.2.2.2⟩

/-- C6: when the HTTP call succeeds but the parse yield is below 10 records,
`fetchTLEData` treats it as an insufficient-data failure: it returns the
fallback chain's data and leaves the cache slot unchanged; a yield of 10 or
more is returned as-is and stored in the cache slot stamped with the
current time and source. -/
theorem insufficient_yield_fallback (cached : Option CachedTLEData) (now : Int)
    (url : String) (text : String)
    (hmiss : ∀ c, cached = some c → (isCacheValid now c && (c.source == url)) = false) :
    ((parseTLEData text).length < 10 →
      fetchTLEData cached now url (some text) = (fallbackData cached, cached)) ∧
    (10 ≤ (parseTLEData text).length →
      fetchTLEData cached now url (some text) =
        (parseTLEData text,
          some { data := parseTLEData text, timestamp := now, source := url })) := by
  constructor
  · intro hlt
    cases cached with
    | none => simp [fetchTLEData, tryFetchTLE, hlt]
    | some c => simp [fetchTLEData, hmiss c rfl, tryFetchTLE, hlt]
  · intro hge
    have hnlt : ¬ (parseTLEData text).length < 10 := by omega
    cases cached with
    | none => simp [fetchTLEData, tryFetchTLE, hnlt]
    | some c => simp [fetchTLEData, hmiss c rfl, tryFetchTLE, hnlt]

/-- Closed witness for `insufficient_yield_fallback`. -/
theorem insufficient_yield_fallback_witness :
    ((parseTLEData "X").length < 10) ∧
    fetchTLEData none 0 "A" (some "X") = (fallbackData none, none) :=
  ⟨by decide,
    (insufficient_yield_fallback none 0 "A" "X" (fun _ hc => Option.noConfusion hc)).1 (by decide)⟩

end Satellite
